import Mathlib

/-!
Shallow embedding of the query translation / safety layer and the typed
result decoder of `src/app.py` (classes `CypherQueryFormatter` and
`DatabaseManager`).  Strings are modelled as `List Char`; Python string
operations (`str.split`, `str.strip`, `str.rstrip`, `str.lower`,
substring membership) and the regular expressions actually used by the
source are translated into executable Lean functions.  The embedding is
faithful for ASCII input (Python's `str.lower` and the regex classes
`\w`, `\s` extend to Unicode; every behaviour the claims mention is
ASCII).  `json.loads` (Python standard library, used by
`DatabaseManager.execute_query`) is modelled by a fuel-based
recursive-descent reader of the JSON grammar the default decoder
accepts; numbers keep their lexeme, which is enough because no claim
compares numeric values.
-/

namespace Watchage

/-- Coerce a Lean string literal to the `List Char` representation used
throughout the development. -/
def strToL (s : String) : List Char :=
  s.data

/-- Whitespace characters of Python `str.split()` / `str.strip()` and of
the regex class `\s` (ASCII part): space, tab, newline, carriage
return, vertical tab, form feed. -/
def isPySpace (c : Char) : Bool :=
  c = ' ' || c = '\t' || c = '\n' || c = '\r' || c = '\x0b' || c = '\x0c'

/-- Word characters of the regex class `\w` (ASCII part): letters,
digits and underscore. -/
def isWordChar (c : Char) : Bool :=
  c.isAlphanum || c = '_'

/-- Helper for `pySplit`: `cur` is the (reversed) token being built. -/
def pySplitGo : List Char → List Char → List (List Char)
  | [], cur => if cur.isEmpty then [] else [cur.reverse]
  | c :: rest, cur =>
    if isPySpace c then
      if cur.isEmpty then pySplitGo rest [] else cur.reverse :: pySplitGo rest []
    else
      pySplitGo rest (c :: cur)

/-- Python `str.split()` with no argument: split on runs of whitespace,
producing no empty tokens. -/
def pySplit (l : List Char) : List (List Char) :=
  pySplitGo l []

/-- Python `str.strip()`: remove leading and trailing whitespace. -/
def pyStrip (l : List Char) : List Char :=
  ((l.dropWhile isPySpace).reverse.dropWhile isPySpace).reverse

/-- Python `str.rstrip(chars)`: remove from the right every character
that belongs to the character SET `chars` (not the exact suffix). -/
def pyRstrip (chars : List Char) (l : List Char) : List Char :=
  (l.reverse.dropWhile (fun c => chars.contains c)).reverse

/-- Lowercase a token the way Python `str.lower()` does on ASCII input
(`Char.toLower` maps `A`–`Z` to `a`–`z` and fixes everything else). -/
def toLowerL (l : List Char) : List Char :=
  l.map Char.toLower

/-- The denylist of `CypherQueryFormatter.is_safe_cypher_query`
(`unsafe_keywords` in the source, src/app.py line 68). -/
def denied_keywords : List (List Char) :=
  [strToL "create", strToL "delete", strToL "set", strToL "remove", strToL "merge"]

/-- `CypherQueryFormatter.is_safe_cypher_query` (src/app.py lines
59-69): split on whitespace, and require that no token, lowercased,
is one of the denied keywords. -/
def is_safe_cypher_query (q : List Char) : Bool :=
  (pySplit q).all (fun token => !(denied_keywords.contains (toLowerL token)))

end Watchage

namespace Watchage

/-! ### Return-clause extraction (src/app.py lines 71-120) -/

/-- One step of the search for `re.search(r"(?i)(?<=\breturn\b)(.*)$", q)`:
does the word `return` (case-insensitively, with `\b` boundaries on both
sides) start at the head of `l`, whose predecessor character is `prev`? -/
def returnWordAt (prev : Option Char) (l : List Char) : Bool :=
  (match prev with
   | none => true
   | some p => !isWordChar p)
  && toLowerL (l.take 6) = strToL "return"
  && (match l.drop 6 with
      | [] => true
      | d :: _ => !isWordChar d)

/-- The group `(.*)$` of the regex at app.py line 79, matched at the
position just after `return`.  Without `re.MULTILINE`, `.` cannot cross
a newline and `$` matches only at the end of the string or just before
a newline that is the string's last character; so the group exists iff
the remaining text has no newline, or its only newline is the final
character, and the group is that text without the final newline. -/
def dotStarEndGroup (rest : List Char) : Option (List Char) :=
  let pre := rest.takeWhile (fun c => c ≠ '\n')
  match rest.drop pre.length with
  | [] => some pre
  | ['\n'] => some pre
  | _ => none

/-- `re.search(r"(?i)(?<=\breturn\b)(.*)$", q)`: try the candidate
positions left to right; at each whole-word, case-insensitive
occurrence of `return`, the zero-width lookbehind matches just after
it, and the overall match succeeds there only if `(.*)$` also matches
(`dotStarEndGroup`); otherwise `re.search` keeps scanning and may
succeed at a LATER occurrence of `return`. -/
def findReturnSpanGo : Option Char → List Char → Option (List Char)
  | _, [] => none
  | prev, c :: rest =>
    if returnWordAt prev (c :: rest) then
      match dotStarEndGroup ((c :: rest).drop 6) with
      | some g => some g
      | none => findReturnSpanGo (some c) rest
    else findReturnSpanGo (some c) rest

/-- The return span of a query: the group of the first successful match
of the search regex, if any. -/
def findReturnSpan (q : List Char) : Option (List Char) :=
  findReturnSpanGo none q

/-- Tokens that set the `next_is_alias` flag (src/app.py line 92). -/
def aliasKeywords : List (List Char) :=
  [strToL "as", strToL "distinct"]

/-- Tokens that stop the scan of a return part (src/app.py lines 95-103). -/
def stopKeywords : List (List Char) :=
  [strToL "order", strToL "group", strToL "by", strToL "desc",
   strToL "asc", strToL "limit", strToL "skip"]

/-- The token loop of `extract_return_values` (src/app.py lines 88-111):
`al` is `next_is_alias`, `rv` is `return_value`.  An `as`/`distinct`
token sets the flag and continues; a stop keyword or a literal `=`
breaks; any other token becomes the candidate, and breaks if the flag
is set. -/
def scanTokens : List (List Char) → Bool → List Char → List Char
  | [], _, rv => rv
  | t :: rest, al, rv =>
    if aliasKeywords.contains (toLowerL t) then scanTokens rest true rv
    else if stopKeywords.contains (toLowerL t) then rv
    else if t = ['='] then rv
    else if al then t
    else scanTokens rest al t

/-- `re.compile(r"([A-Za-z0-9_]\w*)\s*(?=\()").match(rv)` (src/app.py
lines 84, 112-114): the maximal leading word-character run, provided it
is nonempty and is followed by optional whitespace and then `(`. -/
def funcCallHead (rv : List Char) : Option (List Char) :=
  let w := rv.takeWhile isWordChar
  if w.isEmpty then none
  else
    match (rv.drop w.length).dropWhile isPySpace with
    | '(' :: _ => some w
    | _ => none

/-- `re.compile(r"^[0-9\.]+$").match(rv)` (src/app.py lines 85, 115):
nonempty, and every character is a digit or a dot. -/
def isNumLike (rv : List Char) : Bool :=
  !rv.isEmpty && rv.all (fun c => c.isDigit || c = '.')

/-- Post-processing of a candidate (src/app.py lines 112-117): replace a
function-call form by the function name; then, unless the candidate is
purely numeric, truncate at the first `.` (`rv.split(".")[0]`). -/
def postProcess (rv : List Char) : List Char :=
  let rv1 := match funcCallHead rv with
             | some w => w
             | none => rv
  if isNumLike rv1 then rv1 else rv1.takeWhile (fun c => c ≠ '.')

/-- `re.search(r"[(){}]", rv)` is `None` (src/app.py line 118): the
candidate survives when it contains no parenthesis or brace. -/
def keepCandidate (rv : List Char) : Bool :=
  rv.all (fun c => !(c = '(' || c = ')' || c = '\x7b' || c = '\x7d'))

/-- `CypherQueryFormatter.extract_return_values` (src/app.py lines
72-120). -/
def extract_return_values (q : List Char) : List (List Char) :=
  let parts : List (List Char) :=
    match findReturnSpan q with
    | none => []
    | some span => ((pyStrip span).splitOn ',').map pyStrip
  (parts.map (fun part => postProcess (scanTokens (pySplit part) false []))).filter
    keepCandidate

end Watchage

namespace Watchage

/-! ### Statement composition (src/app.py lines 32-57) -/

/-- The three `ValueError` messages `format_query` can raise:
`"Unsafe query"`, `"Parameterized query"`, `"No return values
specified"`. -/
inductive QueryError where
  | dangerousQuery
  | parameterizedQuery
  | noReturnValues
deriving DecidableEq

/-- `re.findall(r"\$(\w+)", q)` is nonempty (src/app.py line 50): some
`$` is immediately followed by a word character. -/
def hasParamPlaceholder : List Char → Bool
  | [] => false
  | c :: rest =>
    ((c = '$') && (match rest with
                   | d :: _ => isWordChar d
                   | [] => false))
    || hasParamPlaceholder rest

/-- Python substring membership `pat in l`. -/
def containsSubstr (l pat : List Char) : Bool :=
  match l with
  | [] => pat.isEmpty
  | _ :: rest => pat.isPrefixOf l || containsSubstr rest pat

/-- Lines 44-45 of src/app.py: append `" LIMIT 50"` when the lowered
query does not contain the substring `limit`. -/
def limitAppend (q : List Char) : List Char :=
  if containsSubstr (toLowerL q) (strToL "limit") then q else q ++ strToL " LIMIT 50"

/-- Line 55 of src/app.py: the composed statement text. -/
def buildStatement (g q2 : List Char) (returns : List (List Char)) : List Char :=
  strToL "SELECT * FROM cypher(\x27" ++ g ++ strToL "\x27, $$ " ++ q2
    ++ strToL " $$) AS ("
    ++ List.intercalate (strToL ", ") (returns.map (fun r => r ++ strToL " agtype"))
    ++ strToL ");"

/-- `CypherQueryFormatter.format_query` (src/app.py lines 32-57), with
each `raise ValueError(...)` modelled as an `Except.error`. -/
def format_query (g q : List Char) : Except QueryError (List Char) :=
  if !is_safe_cypher_query q then Except.error QueryError.dangerousQuery
  else
    let q2 := limitAppend q
    let returns := extract_return_values q2
    if hasParamPlaceholder q2 then Except.error QueryError.parameterizedQuery
    else if !returns.isEmpty then Except.ok (buildStatement g q2 returns)
    else Except.error QueryError.noReturnValues

end Watchage

namespace Watchage

/-! ### A model of Python `json.loads`

The default `json.JSONDecoder` accepts objects, arrays, strings with
the standard escapes, numbers, `true`/`false`/`null` and the constants
`NaN`/`Infinity`/`-Infinity`, requires the whole input to be consumed
(modulo surrounding whitespace from the set space/tab/newline/return),
and rejects unescaped control characters inside strings (strict mode).
Numbers and the three constants keep their lexeme: no claim inspects a
numeric value.  Object key collisions behave like `dict(pairs)`: the
last binding wins (see `jLookup`).  `\uXXXX` escapes decode to the
corresponding character, combining a high/low surrogate pair the way
the Python decoder does; a lone surrogate (representable in Python,
not in Lean `Char`) falls back on `Char.ofNat`'s default — no claim
depends on such input.  All readers take fuel; `parseJson` hands them
more fuel than any run can consume, so fuel exhaustion never shows. -/

/-- A JSON value as produced by the model of `json.loads`. -/
inductive Json where
  | null : Json
  | bool (b : Bool) : Json
  | num (lexeme : List Char) : Json
  | str (s : List Char) : Json
  | arr (items : List Json) : Json
  | obj (fields : List (List Char × Json)) : Json

/-- Whitespace skipped between JSON tokens (the decoder's `_w`). -/
def skipJsonWs (l : List Char) : List Char :=
  l.dropWhile (fun c => c = ' ' || c = '\t' || c = '\n' || c = '\r')

/-- Value of one hex digit, if the character is one. -/
def hexVal (c : Char) : Option Nat :=
  if '0' ≤ c && c ≤ '9' then some (c.toNat - 48)
  else if 'a' ≤ c && c ≤ 'f' then some (c.toNat - 87)
  else if 'A' ≤ c && c ≤ 'F' then some (c.toNat - 55)
  else none

/-- Read the four hex digits of a `\uXXXX` escape. -/
def readHex4 : List Char → Option (Nat × List Char)
  | h1 :: h2 :: h3 :: h4 :: rest =>
    match hexVal h1, hexVal h2, hexVal h3, hexVal h4 with
    | some a, some b, some c, some d => some ((((a * 16 + b) * 16 + c) * 16 + d), rest)
    | _, _, _, _ => none
  | _ => none

/-- Read a `\uXXXX` escape, combining a following low surrogate with a
high one the way `py_scanstring` does. -/
def readUnicodeEscape (l : List Char) : Option (Char × List Char) :=
  match readHex4 l with
  | none => none
  | some (u, rest) =>
    if 0xd800 ≤ u && u ≤ 0xdbff then
      match rest with
      | '\\' :: 'u' :: rest2 =>
        match readHex4 rest2 with
        | some (u2, rest3) =>
          if 0xdc00 ≤ u2 && u2 ≤ 0xdfff then
            some (Char.ofNat (0x10000 + (u - 0xd800) * 0x400 + (u2 - 0xdc00)), rest3)
          else some (Char.ofNat u, rest)
        | none => some (Char.ofNat u, rest)
      | _ => some (Char.ofNat u, rest)
    else some (Char.ofNat u, rest)

/-- JSON string body reader (after the opening quote): yields the
decoded content and the input after the closing quote. -/
def readJsonString : Nat → List Char → Option (List Char × List Char)
  | 0, _ => none
  | _, [] => none
  | fuel + 1, c :: rest =>
    if c = '"' then some ([], rest)
    else if c = '\\' then
      match rest with
      | [] => none
      | e :: rest2 =>
        let withChar (ch : Char) (r : List Char) : Option (List Char × List Char) :=
          (readJsonString fuel r).map (fun p => (ch :: p.1, p.2))
        if e = '"' then withChar '"' rest2
        else if e = '\\' then withChar '\\' rest2
        else if e = '/' then withChar '/' rest2
        else if e = 'b' then withChar '\x08' rest2
        else if e = 'f' then withChar '\x0c' rest2
        else if e = 'n' then withChar '\n' rest2
        else if e = 'r' then withChar '\r' rest2
        else if e = 't' then withChar '\t' rest2
        else if e = 'u' then
          match readUnicodeEscape rest2 with
          | some (ch, rest3) => withChar ch rest3
          | none => none
        else none
    else if c.toNat < 32 then none
    else (readJsonString fuel rest).map (fun p => (c :: p.1, p.2))

/-- The number regex of the scanner,
`(-?(?:0|[1-9]\d*))(\.\d+)?([eE][-+]?\d+)?`, returning the lexeme. -/
def readJsonNumber (l : List Char) : Option (List Char × List Char) :=
  let (sign, l1) :=
    match l with
    | '-' :: r => ([('-' : Char)], r)
    | _ => (([] : List Char), l)
  match l1 with
  | [] => none
  | d :: r =>
    if !d.isDigit then none
    else
      let (intPart, afterInt) :=
        if d = '0' then ([d], r)
        else (d :: r.takeWhile Char.isDigit, r.dropWhile Char.isDigit)
      let (fracPart, afterFrac) :=
        match afterInt with
        | '.' :: f :: fr =>
          if f.isDigit then
            ('.' :: f :: fr.takeWhile Char.isDigit, fr.dropWhile Char.isDigit)
          else (([] : List Char), afterInt)
        | _ => (([] : List Char), afterInt)
      let (expPart, afterExp) :=
        match afterFrac with
        | e :: es =>
          if e = 'e' || e = 'E' then
            match es with
            | s :: es2 =>
              if s = '+' || s = '-' then
                match es2 with
                | d2 :: _ =>
                  if d2.isDigit then
                    (e :: s :: es2.takeWhile Char.isDigit, es2.dropWhile Char.isDigit)
                  else (([] : List Char), afterFrac)
                | [] => (([] : List Char), afterFrac)
              else if s.isDigit then
                (e :: es.takeWhile Char.isDigit, es.dropWhile Char.isDigit)
              else (([] : List Char), afterFrac)
            | [] => (([] : List Char), afterFrac)
          else (([] : List Char), afterFrac)
        | [] => (([] : List Char), afterFrac)
      some (sign ++ intPart ++ fracPart ++ expPart, afterExp)

mutual

/-- `scan_once` of the decoder: read one JSON value at the head of the
input (whitespace already skipped). -/
def readJsonValue : Nat → List Char → Option (Json × List Char)
  | 0, _ => none
  | fuel + 1, l =>
    match l with
    | '"' :: rest => (readJsonString fuel rest).map (fun p => (Json.str p.1, p.2))
    | '\x7b' :: rest => readJsonObject fuel rest
    | '[' :: rest => readJsonArray fuel rest
    | 't' :: 'r' :: 'u' :: 'e' :: rest => some (Json.bool true, rest)
    | 'f' :: 'a' :: 'l' :: 's' :: 'e' :: rest => some (Json.bool false, rest)
    | 'n' :: 'u' :: 'l' :: 'l' :: rest => some (Json.null, rest)
    | 'N' :: 'a' :: 'N' :: rest => some (Json.num (strToL "NaN"), rest)
    | 'I' :: 'n' :: 'f' :: 'i' :: 'n' :: 'i' :: 't' :: 'y' :: rest =>
      some (Json.num (strToL "Infinity"), rest)
    | '-' :: 'I' :: 'n' :: 'f' :: 'i' :: 'n' :: 'i' :: 't' :: 'y' :: rest =>
      some (Json.num (strToL "-Infinity"), rest)
    | _ => (readJsonNumber l).map (fun p => (Json.num p.1, p.2))

/-- Object reader, entered just after `{`. -/
def readJsonObject (fuel : Nat) (l : List Char) : Option (Json × List Char) :=
  match fuel with
  | 0 => none
  | fuel + 1 =>
    match skipJsonWs l with
    | '\x7d' :: rest => some (Json.obj [], rest)
    | l1 => readJsonMembers fuel l1 []

/-- Member loop of the object reader; the input must start with the
quote of the next key. -/
def readJsonMembers (fuel : Nat) (l : List Char) (acc : List (List Char × Json)) :
    Option (Json × List Char) :=
  match fuel with
  | 0 => none
  | fuel + 1 =>
    match l with
    | '"' :: rest =>
      match readJsonString fuel rest with
      | none => none
      | some (key, r1) =>
        match skipJsonWs r1 with
        | ':' :: r2 =>
          match readJsonValue fuel (skipJsonWs r2) with
          | none => none
          | some (v, r3) =>
            match skipJsonWs r3 with
            | '\x7d' :: r4 => some (Json.obj (acc ++ [(key, v)]), r4)
            | ',' :: r4 => readJsonMembers fuel (skipJsonWs r4) (acc ++ [(key, v)])
            | _ => none
        | _ => none
    | _ => none

/-- Array reader, entered just after `[`. -/
def readJsonArray (fuel : Nat) (l : List Char) : Option (Json × List Char) :=
  match fuel with
  | 0 => none
  | fuel + 1 =>
    match skipJsonWs l with
    | ']' :: rest => some (Json.arr [], rest)
    | l1 => readJsonItems fuel l1 []

/-- Item loop of the array reader. -/
def readJsonItems (fuel : Nat) (l : List Char) (acc : List Json) :
    Option (Json × List Char) :=
  match fuel with
  | 0 => none
  | fuel + 1 =>
    match readJsonValue fuel l with
    | none => none
    | some (v, r1) =>
      match skipJsonWs r1 with
      | ']' :: r2 => some (Json.arr (acc ++ [v]), r2)
      | ',' :: r2 => readJsonItems fuel (skipJsonWs r2) (acc ++ [v])
      | _ => none

end

/-- `json.loads`: parse one value and require only whitespace after it
(`Extra data` otherwise).  The fuel bound exceeds the number of reader
calls any input can trigger, since every nesting step and every member
or item consumes at least one character. -/
def parseJson (l : List Char) : Option Json :=
  match readJsonValue (4 * l.length + 8) (skipJsonWs l) with
  | some (v, rest) => if (skipJsonWs rest).isEmpty then some v else none
  | none => none

end Watchage

namespace Watchage

/-! ### Result decoding (`DatabaseManager.execute_query`, src/app.py
lines 181-214) -/

/-- A decoded node dict (src/app.py lines 192-196): exactly the keys
`id`, `label`, `properties`.  A missing field is Python `None`, which
the `json` module identifies with JSON `null`, hence `Json.null`. -/
structure GraphNode where
  id : Json
  label : Json
  properties : Json

/-- A decoded edge dict (src/app.py lines 204-210): exactly the keys
`id`, `label`, `source`, `target`, `properties`. -/
structure GraphEdge where
  id : Json
  label : Json
  source : Json
  target : Json
  properties : Json

/-- `dict(pairs).get(k)` for the pair list of a parsed object: the last
binding of `k` wins; a missing key gives `None`, i.e. `Json.null`. -/
def jLookup (fields : List (List Char × Json)) (k : List Char) : Json :=
  match fields.reverse.find? (fun p => p.1 == k) with
  | some p => p.2
  | none => Json.null

/-- The vertex tag of an AGE result cell (src/app.py line 186). -/
def vertexSuffix : List Char :=
  strToL "::vertex"

/-- The edge tag of an AGE result cell (src/app.py line 198). -/
def edgeSuffix : List Char :=
  strToL "::edge"

/-- The body of the `for item in row` loop (src/app.py lines 185-211).
`continue` on a `json.JSONDecodeError` keeps the accumulators; a
payload that parses to a non-object value makes `jsn.get(...)` raise an
uncaught `AttributeError`, modelled as `Except.error ()`. -/
def decodeItem (item : List Char) (nodes : List GraphNode) (edges : List GraphEdge) :
    Except Unit (List GraphNode × List GraphEdge) :=
  if vertexSuffix.isSuffixOf item then
    match parseJson (pyRstrip vertexSuffix item) with
    | none => Except.ok (nodes, edges)
    | some (Json.obj fields) =>
      Except.ok
        (nodes ++ [{ id := jLookup fields (strToL "id"),
                     label := jLookup fields (strToL "label"),
                     properties := jLookup fields (strToL "properties") }],
         edges)
    | some _ => Except.error ()
  else if edgeSuffix.isSuffixOf item then
    match parseJson (pyRstrip edgeSuffix item) with
    | none => Except.ok (nodes, edges)
    | some (Json.obj fields) =>
      Except.ok
        (nodes,
         edges ++ [{ id := jLookup fields (strToL "id"),
                     label := jLookup fields (strToL "label"),
                     source := jLookup fields (strToL "start_id"),
                     target := jLookup fields (strToL "end_id"),
                     properties := jLookup fields (strToL "properties") }])
    | some _ => Except.error ()
  else Except.ok (nodes, edges)

/-- The inner loop over the cells of one row. -/
def decodeItems (items : List (List Char)) (nodes : List GraphNode)
    (edges : List GraphEdge) : Except Unit (List GraphNode × List GraphEdge) :=
  match items with
  | [] => Except.ok (nodes, edges)
  | item :: rest =>
    match decodeItem item nodes edges with
    | Except.ok (n', e') => decodeItems rest n' e'
    | Except.error u => Except.error u

/-- The outer loop over rows, threading the accumulators. -/
def decodeRowsGo : List (List (List Char)) → List GraphNode → List GraphEdge →
    Except Unit (List GraphNode × List GraphEdge)
  | [], nodes, edges => Except.ok (nodes, edges)
  | row :: rest, nodes, edges =>
    match decodeItems row nodes edges with
    | Except.ok (n', e') => decodeRowsGo rest n' e'
    | Except.error u => Except.error u

/-- The result-decoding phase of `DatabaseManager.execute_query`
(src/app.py lines 181-214): traverse rows then cells, accumulating
nodes and edges in traversal order. -/
def decodeRows (rows : List (List (List Char))) :
    Except Unit (List GraphNode × List GraphEdge) :=
  decodeRowsGo rows [] []

/-- A tagged cell whose stripped payload fails to parse as JSON — the
`json.JSONDecodeError` case, skipped by the source. -/
def taggedParseFails (item : List Char) : Bool :=
  if vertexSuffix.isSuffixOf item then (parseJson (pyRstrip vertexSuffix item)).isNone
  else if edgeSuffix.isSuffixOf item then (parseJson (pyRstrip edgeSuffix item)).isNone
  else false

/-- Is a parse result a value other than an object?  On such a value
`jsn.get(...)` raises `AttributeError`. -/
def isNonObjResult : Option Json → Bool
  | some (Json.obj _) => false
  | some _ => true
  | none => false

/-- A tagged cell whose stripped payload parses to a non-object JSON
value: the one kind of cell on which the source's decode loop raises an
uncaught exception. -/
def cellAborts (item : List Char) : Bool :=
  if vertexSuffix.isSuffixOf item then isNonObjResult (parseJson (pyRstrip vertexSuffix item))
  else if edgeSuffix.isSuffixOf item then isNonObjResult (parseJson (pyRstrip edgeSuffix item))
  else false

end Watchage

namespace Watchage

/-! ### Supporting lemmas -/

/-- The safety check fails exactly when some whitespace token lowers to
a denied keyword. -/
theorem is_safe_eq_false_iff (q : List Char) :
    is_safe_cypher_query q = false ↔
      ∃ t ∈ pySplit q, denied_keywords.contains (toLowerL t) = true := by
  unfold is_safe_cypher_query
  rw [← Bool.not_eq_true, List.all_eq_true]
  simp

/-- Membership in the denylist, spelled out. -/
theorem contains_denied_iff (x : List Char) :
    denied_keywords.contains x = true ↔
      (x = strToL "create" ∨ x = strToL "delete" ∨ x = strToL "set" ∨
       x = strToL "remove" ∨ x = strToL "merge") := by
  simp [denied_keywords, List.contains]

/-- `format_query` yields the `Unsafe query` rejection exactly when the
safety check fails; no later branch produces that error. -/
theorem format_query_dangerous_iff (g q : List Char) :
    format_query g q = Except.error QueryError.dangerousQuery ↔
      is_safe_cypher_query q = false := by
  unfold format_query
  cases hs : is_safe_cypher_query q with
  | false => simp
  | true =>
    simp only [Bool.not_true, Bool.false_eq_true, if_false]
    constructor
    · intro h
      split at h
      · exact absurd (Except.error.inj h) (by decide)
      · split at h
        · exact absurd h (by simp)
        · exact absurd (Except.error.inj h) (by decide)
    · intro h
      exact absurd h (by simp)

/-- A `$`-placeholder survives appending text on the right. -/
theorem hasParamPlaceholder_append (q r : List Char)
    (h : hasParamPlaceholder q = true) : hasParamPlaceholder (q ++ r) = true := by
  induction q with
  | nil => simp [hasParamPlaceholder] at h
  | cons c rest ih =>
    unfold hasParamPlaceholder at h ⊢
    rcases Bool.or_eq_true_iff.mp h with h1 | h2
    · rcases Bool.and_eq_true_iff.mp h1 with ⟨hc, hd⟩
      cases rest with
      | nil => simp at hd
      | cons d rest2 =>
        apply Bool.or_eq_true_iff.mpr
        exact Or.inl (Bool.and_eq_true_iff.mpr ⟨hc, by simpa using hd⟩)
    · exact Bool.or_eq_true_iff.mpr (Or.inr (ih h2))

/-- The placeholder scan runs on the (possibly limit-appended) query, so
a placeholder in the original text is always seen. -/
theorem hasParamPlaceholder_limitAppend (q : List Char)
    (h : hasParamPlaceholder q = true) : hasParamPlaceholder (limitAppend q) = true := by
  unfold limitAppend
  split
  · exact h
  · exact hasParamPlaceholder_append _ _ h

end Watchage

namespace Watchage

/-! ### Claims -/

/-- C1: a query is rejected with the `Unsafe query` reason exactly when
some whitespace-separated token, lowercased, equals one of `create`,
`delete`, `set`, `remove`, `merge`; a keyword embedded in a larger
token (such as `n.remove`) does not trigger the rejection. -/
theorem c1_denylist_reject_iff :
    (∀ g q, format_query g q = Except.error QueryError.dangerousQuery ↔
       ∃ t ∈ pySplit q,
         (toLowerL t = strToL "create" ∨ toLowerL t = strToL "delete" ∨
          toLowerL t = strToL "set" ∨ toLowerL t = strToL "remove" ∨
          toLowerL t = strToL "merge"))
    ∧ is_safe_cypher_query (strToL "MATCH (n) RETURN n.remove") = true := by
  refine ⟨fun g q => ?_, by decide⟩
  rw [format_query_dangerous_iff, is_safe_eq_false_iff]
  constructor
  · rintro ⟨t, ht, hc⟩
    exact ⟨t, ht, (contains_denied_iff _).mp hc⟩
  · rintro ⟨t, ht, hc⟩
    exact ⟨t, ht, (contains_denied_iff _).mpr hc⟩

/-- Witness for C1: `MATCH (n) DELETE n` is rejected as unsafe, through
the characterisation. -/
theorem c1_denylist_reject_iff_witness :
    format_query (strToL "g") (strToL "MATCH (n) DELETE n") =
      Except.error QueryError.dangerousQuery :=
  (c1_denylist_reject_iff.1 (strToL "g") (strToL "MATCH (n) DELETE n")).mpr
    ⟨strToL "DELETE", by decide, Or.inr (Or.inl (by decide))⟩

/-- C2: whenever composition succeeds, the embedded query text is the
original query with `" LIMIT 50"` appended exactly when the lowered
original lacks the substring `limit`, and is the unchanged original
otherwise. -/
theorem c2_limit_append_iff (g q s : List Char)
    (h : format_query g q = Except.ok s) :
    (containsSubstr (toLowerL q) (strToL "limit") = false ∧
       s = buildStatement g (q ++ strToL " LIMIT 50")
             (extract_return_values (q ++ strToL " LIMIT 50")))
    ∨ (containsSubstr (toLowerL q) (strToL "limit") = true ∧
       s = buildStatement g q (extract_return_values q)) := by
  unfold format_query at h
  cases hs : is_safe_cypher_query q with
  | false => rw [hs] at h; exact absurd h (by simp)
  | true =>
    rw [hs] at h
    simp only [Bool.not_true, Bool.false_eq_true, if_false] at h
    unfold limitAppend at h
    cases hc : containsSubstr (toLowerL q) (strToL "limit") with
    | false =>
      rw [hc] at h
      simp only [Bool.false_eq_true, if_false] at h
      left
      refine ⟨rfl, ?_⟩
      split at h
      · exact absurd h (by simp)
      · split at h
        · exact (Except.ok.inj h).symm
        · exact absurd h (by simp)
    | true =>
      rw [hc] at h
      simp only [if_true] at h
      right
      refine ⟨rfl, ?_⟩
      split at h
      · exact absurd h (by simp)
      · split at h
        · exact (Except.ok.inj h).symm
        · exact absurd h (by simp)

/-- Witness for C2: a query without `limit` composes to a statement
embedding the appended text. -/
theorem c2_limit_append_iff_witness :
    (containsSubstr (toLowerL (strToL "MATCH (n) RETURN n")) (strToL "limit") = false ∧
       strToL "SELECT * FROM cypher(\x27g\x27, $$ MATCH (n) RETURN n LIMIT 50 $$) AS (n agtype);" =
         buildStatement (strToL "g") (strToL "MATCH (n) RETURN n" ++ strToL " LIMIT 50")
           (extract_return_values (strToL "MATCH (n) RETURN n" ++ strToL " LIMIT 50")))
    ∨ (containsSubstr (toLowerL (strToL "MATCH (n) RETURN n")) (strToL "limit") = true ∧
       strToL "SELECT * FROM cypher(\x27g\x27, $$ MATCH (n) RETURN n LIMIT 50 $$) AS (n agtype);" =
         buildStatement (strToL "g") (strToL "MATCH (n) RETURN n")
           (extract_return_values (strToL "MATCH (n) RETURN n"))) :=
  c2_limit_append_iff (strToL "g") (strToL "MATCH (n) RETURN n")
    (strToL "SELECT * FROM cypher(\x27g\x27, $$ MATCH (n) RETURN n LIMIT 50 $$) AS (n agtype);")
    (by rfl)

/-- C3 counterexample: `CREATE $x` contains a placeholder, yet it is
rejected as `Unsafe query` (the safety check runs first), not as
`Parameterized query` — so the placeholder rejection is NOT independent
of safety. -/
theorem c3_counterexample :
    hasParamPlaceholder (strToL "CREATE $x") = true ∧
    format_query (strToL "g") (strToL "CREATE $x") =
      Except.error QueryError.dangerousQuery ∧
    QueryError.dangerousQuery ≠ QueryError.parameterizedQuery :=
  ⟨by decide, by rfl, by decide⟩

/-- C3 (amended): every SAFE query containing a `$`-placeholder is
rejected with `Parameterized query`, regardless of the return-clause
outcome. -/
theorem c3_param_reject_of_safe (g q : List Char)
    (hs : is_safe_cypher_query q = true)
    (hp : hasParamPlaceholder q = true) :
    format_query g q = Except.error QueryError.parameterizedQuery := by
  unfold format_query
  rw [hs]
  simp only [Bool.not_true, Bool.false_eq_true, if_false]
  rw [hasParamPlaceholder_limitAppend q hp]
  simp

/-- Witness for C3 (amended): a safe parameterized query whose
return-clause extraction is nonempty. -/
theorem c3_param_reject_of_safe_witness :
    format_query (strToL "g") (strToL "MATCH (n) RETURN $x") =
      Except.error QueryError.parameterizedQuery :=
  c3_param_reject_of_safe (strToL "g") (strToL "MATCH (n) RETURN $x")
    (by decide) (by decide)

/-- C4 counterexample: `$p` is safe, its (limit-appended) text has no
return clause so extraction is empty, yet composition rejects it with
`Parameterized query`, not `No return values specified` — the
placeholder scan runs BEFORE the zero-identifier rejection. -/
theorem c4_counterexample :
    is_safe_cypher_query (strToL "$p") = true ∧
    extract_return_values (limitAppend (strToL "$p")) = [] ∧
    hasParamPlaceholder (strToL "$p") = true ∧
    format_query (strToL "g") (strToL "$p") =
      Except.error QueryError.parameterizedQuery ∧
    QueryError.parameterizedQuery ≠ QueryError.noReturnValues :=
  ⟨by decide, by rfl, by decide, by rfl, by decide⟩

/-- C4 (amended): for a safe query whose extraction yields zero
identifiers, the placeholder scan has priority: the rejection is
`Parameterized query` when the (limit-appended) text has a placeholder
and `No return values specified` otherwise. -/
theorem c4_param_scan_precedes (g q : List Char)
    (hs : is_safe_cypher_query q = true)
    (he : extract_return_values (limitAppend q) = []) :
    format_query g q =
      (if hasParamPlaceholder (limitAppend q) then
        Except.error QueryError.parameterizedQuery
      else Except.error QueryError.noReturnValues) := by
  unfold format_query
  rw [hs]
  simp only [Bool.not_true, Bool.false_eq_true, if_false]
  rw [he]
  split
  · rfl
  · simp

/-- Witness for C4 (amended): evaluated at the safe placeholder query
`$p` with no return clause. -/
theorem c4_param_scan_precedes_witness :
    format_query (strToL "g") (strToL "$p") =
      (if hasParamPlaceholder (limitAppend (strToL "$p")) then
        Except.error QueryError.parameterizedQuery
      else Except.error QueryError.noReturnValues) :=
  c4_param_scan_precedes (strToL "g") (strToL "$p") (by decide) (by rfl)

end Watchage

namespace Watchage

/-- The alias and stop keyword lists are disjoint. -/
theorem stop_not_alias (x : List Char) (h : stopKeywords.contains x = true) :
    aliasKeywords.contains x = false := by
  have hx : x ∈ stopKeywords := by
    obtain ⟨y, hy, hbeq⟩ := List.contains_iff_exists_mem_beq.mp h
    rwa [show x = y from by simpa using hbeq]
  fin_cases hx <;> decide

/-- C5 counterexample: in `RETURN n AS order` the token after `AS` is
the stop-word `order`, and the extractor keeps the earlier candidate
`n` — the alias rule does NOT take priority over stop-words. -/
theorem c5_counterexample :
    extract_return_values (strToL "RETURN n AS order") = [strToL "n"] ∧
    extract_return_values (strToL "RETURN n AS order") ≠ [strToL "order"] :=
  ⟨by rfl, by decide⟩

/-- C5 (amended): after an `as`/`distinct` token, a following token that
is itself `as`/`distinct` is skipped with the flag kept; a following
stop-word or the literal `=` stops the scan WITHOUT updating the
candidate; any other following token becomes the candidate and the scan
stops, whatever tokens follow. -/
theorem c5_alias_scan_cases (a t rv : List Char) (rest : List (List Char)) (al : Bool)
    (ha : aliasKeywords.contains (toLowerL a) = true) :
    (aliasKeywords.contains (toLowerL t) = false →
       stopKeywords.contains (toLowerL t) = false → t ≠ ['='] →
       scanTokens (a :: t :: rest) al rv = t)
    ∧ (stopKeywords.contains (toLowerL t) = true →
       scanTokens (a :: t :: rest) al rv = rv)
    ∧ (t = ['='] → scanTokens (a :: t :: rest) al rv = rv)
    ∧ (aliasKeywords.contains (toLowerL t) = true →
       scanTokens (a :: t :: rest) al rv = scanTokens rest true rv) := by
  refine ⟨fun h1 h2 h3 => ?_, fun h1 => ?_, fun h1 => ?_, fun h1 => ?_⟩
  · unfold scanTokens
    rw [ha]
    simp only [if_true]
    unfold scanTokens
    rw [h1, h2]
    simp [h3]
  · unfold scanTokens
    rw [ha]
    simp only [if_true]
    unfold scanTokens
    rw [stop_not_alias _ h1, h1]
    simp
  · subst h1
    unfold scanTokens
    rw [ha]
    simp only [if_true]
    unfold scanTokens
    rw [show aliasKeywords.contains (toLowerL ['=']) = false from by decide]
    rw [show stopKeywords.contains (toLowerL ['=']) = false from by decide]
    simp
  · conv_lhs => unfold scanTokens
    rw [ha]
    simp only [if_true]
    conv_lhs => unfold scanTokens
    rw [h1]
    simp

/-- Witness for C5 (amended): after `AS`, a plain token `x` becomes the
candidate and the scan stops; after `AS`, the stop-word `order` leaves
the prior candidate `n`; after `AS`, a literal `=` leaves `n`; after
`AS`, the token `distinct` is skipped with the flag kept, so the next
plain token still becomes the candidate. -/
theorem c5_alias_scan_cases_witness :
    scanTokens [strToL "AS", strToL "x", strToL "zzz"] false (strToL "n") = strToL "x" ∧
    scanTokens [strToL "AS", strToL "order", strToL "zzz"] false (strToL "n") = strToL "n" ∧
    scanTokens [strToL "AS", strToL "=", strToL "zzz"] false (strToL "n") = strToL "n" ∧
    scanTokens [strToL "AS", strToL "distinct", strToL "x"] false (strToL "n") =
      scanTokens [strToL "x"] true (strToL "n") :=
  ⟨(c5_alias_scan_cases (strToL "AS") (strToL "x") (strToL "n") [strToL "zzz"] false
      (by decide)).1 (by decide) (by decide) (by decide),
   (c5_alias_scan_cases (strToL "AS") (strToL "order") (strToL "n") [strToL "zzz"] false
      (by decide)).2.1 (by decide),
   (c5_alias_scan_cases (strToL "AS") (strToL "=") (strToL "n") [strToL "zzz"] false
      (by decide)).2.2.1 (by decide),
   (c5_alias_scan_cases (strToL "AS") (strToL "distinct") (strToL "n") [strToL "x"] false
      (by decide)).2.2.2 (by decide)⟩

/-- C6: the extractor yields `["n"]` for `RETURN n`; `["n", "name"]`
for `RETURN n, n.name AS name` (the alias replaces the property-access
candidate); `["count"]` for `RETURN count(n)` (the function-call
candidate is replaced by the function name). -/
theorem c6_extract_examples :
    extract_return_values (strToL "RETURN n") = [strToL "n"] ∧
    extract_return_values (strToL "RETURN n, n.name AS name") =
      [strToL "n", strToL "name"] ∧
    extract_return_values (strToL "RETURN count(n)") = [strToL "count"] :=
  ⟨by rfl, by rfl, by rfl⟩

/-- C7: composing `graph1` with `MATCH (n)-[r]->(m) RETURN n, r, m`
extracts the identifiers `n`, `r`, `m` in order and produces the SELECT
over the `cypher` wrapper call with the limit-appended query embedded
between `$$` delimiters and one `name agtype` pair per identifier. -/
theorem c7_end_to_end :
    extract_return_values (limitAppend (strToL "MATCH (n)-[r]->(m) RETURN n, r, m")) =
      [strToL "n", strToL "r", strToL "m"] ∧
    format_query (strToL "graph1") (strToL "MATCH (n)-[r]->(m) RETURN n, r, m") =
      Except.ok (buildStatement (strToL "graph1")
        (strToL "MATCH (n)-[r]->(m) RETURN n, r, m" ++ strToL " LIMIT 50")
        [strToL "n", strToL "r", strToL "m"]) ∧
    buildStatement (strToL "graph1")
        (strToL "MATCH (n)-[r]->(m) RETURN n, r, m" ++ strToL " LIMIT 50")
        [strToL "n", strToL "r", strToL "m"] =
      strToL "SELECT * FROM cypher(\x27graph1\x27, $$ MATCH (n)-[r]->(m) RETURN n, r, m LIMIT 50 $$) AS (n agtype, r agtype, m agtype);" :=
  ⟨by rfl, by rfl, by rfl⟩

end Watchage

namespace Watchage

/-- A cell that does not abort decodes to SOME successor state. -/
theorem decodeItem_ok_of_not_abort (item : List Char) (nodes : List GraphNode)
    (edges : List GraphEdge) (h : cellAborts item = false) :
    ∃ p, decodeItem item nodes edges = Except.ok p := by
  unfold decodeItem
  unfold cellAborts at h
  cases hv : vertexSuffix.isSuffixOf item with
  | true =>
    rw [hv] at h
    simp only [if_true] at h ⊢
    cases hp : parseJson (pyRstrip vertexSuffix item) with
    | none => exact ⟨_, rfl⟩
    | some j =>
      rw [hp] at h
      cases j with
      | obj fields => exact ⟨_, rfl⟩
      | null => simp [isNonObjResult] at h
      | bool b => simp [isNonObjResult] at h
      | num l => simp [isNonObjResult] at h
      | str s => simp [isNonObjResult] at h
      | arr xs => simp [isNonObjResult] at h
  | false =>
    rw [hv] at h
    simp only [Bool.false_eq_true, if_false] at h ⊢
    cases he : edgeSuffix.isSuffixOf item with
    | true =>
      rw [he] at h
      simp only [if_true] at h ⊢
      cases hp : parseJson (pyRstrip edgeSuffix item) with
      | none => exact ⟨_, rfl⟩
      | some j =>
        rw [hp] at h
        cases j with
        | obj fields => exact ⟨_, rfl⟩
        | null => simp [isNonObjResult] at h
        | bool b => simp [isNonObjResult] at h
        | num l => simp [isNonObjResult] at h
        | str s => simp [isNonObjResult] at h
        | arr xs => simp [isNonObjResult] at h
    | false =>
      exact ⟨_, rfl⟩

/-- A row of non-aborting cells decodes to SOME successor state. -/
theorem decodeItems_ok_of_not_abort (items : List (List Char)) :
    ∀ nodes edges, (∀ item ∈ items, cellAborts item = false) →
      ∃ p, decodeItems items nodes edges = Except.ok p := by
  induction items with
  | nil => exact fun nodes edges _ => ⟨(nodes, edges), rfl⟩
  | cons item rest ih =>
    intro nodes edges h
    obtain ⟨p, hp⟩ := decodeItem_ok_of_not_abort item nodes edges (h item (by simp))
    rcases p with ⟨n1, e1⟩
    obtain ⟨p2, hp2⟩ := ih n1 e1 (fun i hi => h i (by simp [hi]))
    refine ⟨p2, ?_⟩
    unfold decodeItems
    rw [hp]
    exact hp2

/-- Rows of non-aborting cells decode to SOME final state. -/
theorem decodeRowsGo_ok_of_not_abort (rows : List (List (List Char))) :
    ∀ nodes edges, (∀ row ∈ rows, ∀ item ∈ row, cellAborts item = false) →
      ∃ p, decodeRowsGo rows nodes edges = Except.ok p := by
  induction rows with
  | nil => exact fun nodes edges _ => ⟨(nodes, edges), rfl⟩
  | cons row rest ih =>
    intro nodes edges h
    obtain ⟨p, hp⟩ := decodeItems_ok_of_not_abort row nodes edges (h row (by simp))
    rcases p with ⟨n1, e1⟩
    obtain ⟨p2, hp2⟩ := ih n1 e1 (fun r hr => h r (by simp [hr]))
    refine ⟨p2, ?_⟩
    unfold decodeRowsGo
    rw [hp]
    exact hp2

end Watchage

namespace Watchage

/-- C8 (code evaluation at the failing input): the cell `true::vertex`
ends with the exact vertex suffix after the payload `true`, but the
source's `rstrip("::vertex")` removes the whole trailing run of
characters from the set of the suffix, leaving `tru`; `tru` is not
JSON (while the exact-suffix remainder `true` is), so the cell is
silently skipped instead of being processed as the claim describes. -/
theorem c8_rstrip_overstrip_eval :
    strToL "true::vertex" = strToL "true" ++ vertexSuffix ∧
    pyRstrip vertexSuffix (strToL "true::vertex") = strToL "tru" ∧
    parseJson (strToL "tru") = none ∧
    parseJson (strToL "true") = some (Json.bool true) ∧
    decodeRows [[strToL "true::vertex"]] = Except.ok ([], []) :=
  ⟨by rfl, by rfl, by rfl, by rfl, by rfl⟩

/-- C9 counterexample: the cell `[1]::vertex` carries the vertex suffix
and a payload that is valid JSON but not an object; on it the decode of
the WHOLE result set aborts (uncaught `AttributeError` on `.get`), and
the well-formed cell after it is never decoded — even though that same
cell decodes fine on its own. -/
theorem c9_counterexample :
    decodeRows [[strToL "\x7b\x7d::vertex"]] =
      Except.ok ([{ id := Json.null, label := Json.null, properties := Json.null }], []) ∧
    decodeRows [[strToL "[1]::vertex", strToL "\x7b\x7d::vertex"]] = Except.error () :=
  ⟨by rfl, by rfl⟩

/-- C9 (amended): a tagged cell whose stripped payload fails to parse
as JSON is skipped with the accumulators unchanged; but a tagged cell
whose payload parses to a non-object value aborts the decode; and the
decode of a whole result set succeeds whenever no cell is of that
aborting kind. -/
theorem c9_decode_skip_and_total :
    (∀ item nodes edges, taggedParseFails item = true →
       decodeItem item nodes edges = Except.ok (nodes, edges))
    ∧ (∀ item nodes edges, cellAborts item = true →
       decodeItem item nodes edges = Except.error ())
    ∧ (∀ rows, (∀ row ∈ rows, ∀ item ∈ row, cellAborts item = false) →
       ∃ p, decodeRows rows = Except.ok p) := by
  refine ⟨fun item nodes edges h => ?_, fun item nodes edges h => ?_, fun rows h => ?_⟩
  · unfold decodeItem
    unfold taggedParseFails at h
    cases hv : vertexSuffix.isSuffixOf item with
    | true =>
      rw [hv] at h
      simp only [if_true] at h ⊢
      rw [Option.isNone_iff_eq_none.mp h]
    | false =>
      rw [hv] at h
      simp only [Bool.false_eq_true, if_false] at h ⊢
      cases he : edgeSuffix.isSuffixOf item with
      | true =>
        rw [he] at h
        simp only [if_true] at h ⊢
        rw [Option.isNone_iff_eq_none.mp h]
      | false =>
        rw [he] at h
        simp at h
  · unfold decodeItem
    unfold cellAborts at h
    cases hv : vertexSuffix.isSuffixOf item with
    | true =>
      rw [hv] at h
      simp only [if_true] at h ⊢
      cases hp : parseJson (pyRstrip vertexSuffix item) with
      | none => rw [hp] at h; simp [isNonObjResult] at h
      | some j =>
        rw [hp] at h
        cases j with
        | obj fields => simp [isNonObjResult] at h
        | null => rfl
        | bool b => rfl
        | num l => rfl
        | str s => rfl
        | arr xs => rfl
    | false =>
      rw [hv] at h
      simp only [Bool.false_eq_true, if_false] at h ⊢
      cases he : edgeSuffix.isSuffixOf item with
      | true =>
        rw [he] at h
        simp only [if_true] at h ⊢
        cases hp : parseJson (pyRstrip edgeSuffix item) with
        | none => rw [hp] at h; simp [isNonObjResult] at h
        | some j =>
          rw [hp] at h
          cases j with
          | obj fields => simp [isNonObjResult] at h
          | null => rfl
          | bool b => rfl
          | num l => rfl
          | str s => rfl
          | arr xs => rfl
      | false =>
        rw [he] at h
        simp at h
  · exact decodeRowsGo_ok_of_not_abort rows [] [] h

/-- Witness for C9 (amended): the cell `x::vertex` over-strips to the
empty payload and is skipped; `[1]::vertex` aborts; a suffix-free row
decodes successfully. -/
theorem c9_decode_skip_and_total_witness :
    decodeItem (strToL "x::vertex") [] [] = Except.ok ([], []) ∧
    decodeItem (strToL "[1]::vertex") [] [] = Except.error () ∧
    (∃ p, decodeRows [[strToL "plain text"]] = Except.ok p) :=
  ⟨c9_decode_skip_and_total.1 (strToL "x::vertex") [] [] (by rfl),
   c9_decode_skip_and_total.2.1 (strToL "[1]::vertex") [] [] (by rfl),
   c9_decode_skip_and_total.2.2 [[strToL "plain text"]] (by decide)⟩

/-- C10: a tagged cell whose stripped payload parses to a JSON object
decodes to a record built field-by-field with `dict.get`: a GraphNode
with exactly the keys id/label/properties, or a GraphEdge with exactly
the keys id/label/source/target/properties where `source` and `target`
come from `start_id` and `end_id`; and `dict.get` of a key the object
does not bind is null, never a failure. -/
theorem c10_missing_fields_null :
    (∀ item nodes edges fields,
       vertexSuffix.isSuffixOf item = true →
       parseJson (pyRstrip vertexSuffix item) = some (Json.obj fields) →
       decodeItem item nodes edges =
         Except.ok (nodes ++ [{ id := jLookup fields (strToL "id"),
                                label := jLookup fields (strToL "label"),
                                properties := jLookup fields (strToL "properties") }],
                    edges))
    ∧ (∀ item nodes edges fields,
       vertexSuffix.isSuffixOf item = false →
       edgeSuffix.isSuffixOf item = true →
       parseJson (pyRstrip edgeSuffix item) = some (Json.obj fields) →
       decodeItem item nodes edges =
         Except.ok (nodes,
                    edges ++ [{ id := jLookup fields (strToL "id"),
                                label := jLookup fields (strToL "label"),
                                source := jLookup fields (strToL "start_id"),
                                target := jLookup fields (strToL "end_id"),
                                properties := jLookup fields (strToL "properties") }]))
    ∧ (∀ fields k, k ∉ fields.map Prod.fst → jLookup fields k = Json.null) := by
  refine ⟨fun item nodes edges fields hv hp => ?_,
          fun item nodes edges fields hv he hp => ?_,
          fun fields k hk => ?_⟩
  · unfold decodeItem
    rw [hv, hp]
    rfl
  · unfold decodeItem
    rw [hv, he, hp]
    rfl
  · unfold jLookup
    have hnone : fields.reverse.find? (fun p => p.1 == k) = none := by
      rw [List.find?_eq_none]
      intro x hx hbeq
      exact hk (by
        have hx1 : x.1 = k := by simpa using hbeq
        exact hx1 ▸ List.mem_map_of_mem Prod.fst (List.mem_reverse.mp hx))
    rw [hnone]

/-- Witness for C10: the empty-object payload `\x7b\x7d` (i.e. `{}`)
decodes to a node and an edge whose every field is null, and lookup of
`id` in the empty field list is null. -/
theorem c10_missing_fields_null_witness :
    decodeItem (strToL "\x7b\x7d::vertex") [] [] =
      Except.ok ([{ id := jLookup [] (strToL "id"),
                    label := jLookup [] (strToL "label"),
                    properties := jLookup [] (strToL "properties") }], []) ∧
    decodeItem (strToL "\x7b\x7d::edge") [] [] =
      Except.ok ([], [{ id := jLookup [] (strToL "id"),
                        label := jLookup [] (strToL "label"),
                        source := jLookup [] (strToL "start_id"),
                        target := jLookup [] (strToL "end_id"),
                        properties := jLookup [] (strToL "properties") }]) ∧
    jLookup [] (strToL "id") = Json.null :=
  ⟨c10_missing_fields_null.1 (strToL "\x7b\x7d::vertex") [] [] [] (by rfl) (by rfl),
   c10_missing_fields_null.2.1 (strToL "\x7b\x7d::edge") [] [] [] (by rfl) (by rfl) (by rfl),
   c10_missing_fields_null.2.2 [] (strToL "id") (by simp)⟩

end Watchage
